import Mathlib

/-!
Verification of the insurance-certificate OCR pipeline (Ahzem/ocr-agent).

The Python sources are shallowly embedded here: strings are `List Char`
(`Str`), Python dict/JSON values are the inductive `Json`, exceptions are
`Except`, rationals (`ℚ`) stand for Python floats (all arithmetic in the
scored fragments is exact decimal arithmetic, so ℚ is faithful), and byte
strings are `List Nat`.  Each Python function keeps its source name.

Conventions for Python semantics used throughout:
- `str.strip()` / `\s` use the six ASCII whitespace characters; the source
  documents are ASCII so the Unicode extension of `\s`, `\w`, `\d` is not
  exercised and the ASCII classes are used.
- `re.sub`, `re.finditer`, `re.match` on the concrete patterns of the source
  are embedded either by a small backtracking matcher with Python's
  leftmost/greedy semantics (chunking patterns) or by equivalent structural
  checks justified in comments (certificate-number patterns).
-/

set_option maxRecDepth 4000

abbrev Str := List Char

/-- Python whitespace class `\s` (ASCII part): space, tab, newline, carriage
return, vertical tab, form feed. -/
def pySpace (c : Char) : Bool :=
  c == ' ' || c == '\t' || c == '\n' || c == '\r' || c == '\x0b' || c == '\x0c'

/-- Python word class `\w` (ASCII part): letters, digits, underscore. -/
def pyWord (c : Char) : Bool :=
  (('a' ≤ c && c ≤ 'z') || ('A' ≤ c && c ≤ 'Z') || ('0' ≤ c && c ≤ '9') || c == '_')

/-- Python digit class `\d` (ASCII part). -/
def pyDigit (c : Char) : Bool := '0' ≤ c && c ≤ '9'

/-- Python `str.strip()`: drop leading and trailing whitespace. -/
def pyStrip (s : Str) : Str :=
  ((s.dropWhile pySpace).reverse.dropWhile pySpace).reverse

/-- `re.sub(r'\s+', ' ', s)`: every maximal whitespace run becomes one space.
Implemented with two-character lookahead: a whitespace character followed by
another whitespace character is dropped, so each run is emitted as the single
`' '` replacing its last character. -/
def collapseWs : Str → Str
  | [] => []
  | [c] => [if pySpace c then ' ' else c]
  | c :: d :: rest =>
    if pySpace c && pySpace d then collapseWs (d :: rest)
    else (if pySpace c then ' ' else c) :: collapseWs (d :: rest)

/-- `re.sub(r'\n+', ' ', s)`: every maximal run of newlines becomes one
space, same scheme as `collapseWs`. -/
def collapseNl : Str → Str
  | [] => []
  | [c] => [if c == '\n' then ' ' else c]
  | c :: d :: rest =>
    if c == '\n' && d == '\n' then collapseNl (d :: rest)
    else (if c == '\n' then ' ' else c) :: collapseNl (d :: rest)

/-- Character whitelist of `re.sub(r'[^\w\s\-.,@()$#]', '', s)`:
word characters, whitespace, and `- . , @ ( ) $ #`. -/
def keepChar (c : Char) : Bool :=
  pyWord c || pySpace c || c == '-' || c == '.' || c == ',' ||
    c == '@' || c == '(' || c == ')' || c == '$' || c == '#'

/-- `normalize_text` (src/output/app.py, lines 75-89): empty input is
returned as-is (`if not text: return ""`); otherwise strip, collapse
whitespace runs, collapse newline runs, and delete non-whitelist
characters. -/
def normalize_text (s : Str) : Str :=
  if s = [] then []
  else (collapseNl (collapseWs (pyStrip s))).filter keepChar

/-- Python `str.strip()` written without `reverse`: drop leading whitespace,
then drop trailing whitespace recursively.  `stripTrailing` keeps a
character iff something non-whitespace survives at or after it. -/
def stripTrailing : Str → Str
  | [] => []
  | c :: rest =>
    match stripTrailing rest with
    | [] => if pySpace c then [] else [c]
    | r => c :: r

theorem pyStrip_eq_stripTrailing_dropWhile (s : Str) :
    pyStrip s = stripTrailing (s.dropWhile pySpace) := by
  have key : ∀ l : Str, (l.reverse.dropWhile pySpace).reverse = stripTrailing l := by
    intro l
    induction l with
    | nil => simp [stripTrailing]
    | cons c rest ih =>
      rw [stripTrailing]
      simp only [List.reverse_cons, List.dropWhile_append]
      by_cases h : (rest.reverse.dropWhile pySpace) = []
      · rw [h] at ih ⊢
        simp only [List.reverse_nil] at ih
        rw [← ih]
        by_cases hc : pySpace c <;>
          simp [hc, List.dropWhile_cons]
      · rw [if_neg (by simpa using h)]
        have hne : stripTrailing rest ≠ [] := by
          rw [← ih]; simpa using h
        cases hst : stripTrailing rest with
        | nil => exact absurd hst hne
        | cons x xs =>
          rw [List.reverse_append, ih, hst]
          simp
  rw [pyStrip, key]

-- Basic inversion facts about the pieces of `normalize_text`.

theorem dropWhile_head_not (p : Char → Bool) :
    ∀ (l : Str) (c : Char) (t : Str), l.dropWhile p = c :: t → p c = false := by
  intro l
  induction l with
  | nil => intro c t h; simp [List.dropWhile] at h
  | cons a rest ih =>
    intro c t h
    by_cases ha : p a
    · rw [List.dropWhile_cons_of_pos ha] at h; exact ih c t h
    · rw [List.dropWhile_cons_of_neg ha] at h
      cases h; simpa using ha

theorem stripTrailing_head :
    ∀ (l : Str) (c : Char) (t : Str), stripTrailing l = c :: t → l.head? = some c := by
  intro l
  induction l with
  | nil => intro c t h; simp [stripTrailing] at h
  | cons a rest _ =>
    intro c t h
    rw [stripTrailing] at h
    cases hst : stripTrailing rest with
    | nil =>
      rw [hst] at h
      by_cases ha : pySpace a <;> simp [ha] at h
      simp [h.1]
    | cons x xs => rw [hst] at h; cases h; simp

/-- No trailing whitespace, as a recursive Bool. -/
def lastNonSpace : Str → Bool
  | [] => true
  | [c] => !pySpace c
  | _ :: d :: rest => lastNonSpace (d :: rest)

theorem stripTrailing_lastNonSpace : ∀ l : Str, lastNonSpace (stripTrailing l) = true := by
  intro l
  induction l with
  | nil => simp [stripTrailing, lastNonSpace]
  | cons c rest ih =>
    rw [stripTrailing]
    cases hst : stripTrailing rest with
    | nil => by_cases hc : pySpace c <;> simp [hc, lastNonSpace]
    | cons x xs =>
      rw [hst] at ih
      simpa [lastNonSpace] using ih

theorem stripTrailing_subset : ∀ (l : Str) (c : Char), c ∈ stripTrailing l → c ∈ l := by
  intro l
  induction l with
  | nil => intro c h; simp [stripTrailing] at h
  | cons a rest ih =>
    intro c h
    rw [stripTrailing] at h
    cases hst : stripTrailing rest with
    | nil =>
      rw [hst] at h
      by_cases ha : pySpace a <;> simp [ha] at h
      simp [h]
    | cons x xs =>
      rw [hst] at h
      rcases List.mem_cons.mp h with h | h
      · simp [h]
      · exact List.mem_cons_of_mem a (ih c (hst ▸ List.mem_cons.mpr (by simpa using h)))

theorem stripTrailing_fixed : ∀ l : Str, lastNonSpace l = true → stripTrailing l = l := by
  intro l
  induction l with
  | nil => simp [stripTrailing]
  | cons c rest ih =>
    intro h
    rw [stripTrailing]
    cases rest with
    | nil =>
      simp only [lastNonSpace, Bool.not_eq_true'] at h
      simp [stripTrailing, h]
    | cons d rrest =>
      have : stripTrailing (d :: rrest) = d :: rrest := ih (by simpa [lastNonSpace] using h)
      rw [this]

theorem pyStrip_subset (s : Str) (c : Char) (h : c ∈ pyStrip s) : c ∈ s := by
  rw [pyStrip_eq_stripTrailing_dropWhile] at h
  exact (List.dropWhile_sublist pySpace).mem (stripTrailing_subset _ c h)

/-- Interior well-formedness after whitespace collapsing: every whitespace
character is a plain space followed by a non-space, and the final character
is non-space. -/
def innerOk : Str → Bool
  | [] => true
  | [c] => !pySpace c
  | c :: d :: rest => (!pySpace c || (c == ' ' && !pySpace d)) && innerOk (d :: rest)

theorem collapseWs_ne_nil : ∀ l : Str, l ≠ [] → collapseWs l ≠ [] := by
  intro l
  induction l with
  | nil => intro h; exact absurd rfl h
  | cons c rest ih =>
    intro _
    cases rest with
    | nil => simp [collapseWs]
    | cons d rrest =>
      rw [collapseWs]
      by_cases h2 : pySpace c && pySpace d
      · simp only [h2, if_pos]; exact ih (by simp)
      · simp [h2]

theorem collapseWs_head (c : Char) (rest : Str) (hc : pySpace c = false) :
    ∃ t, collapseWs (c :: rest) = c :: t := by
  cases rest with
  | nil => exact ⟨[], by simp [collapseWs, hc]⟩
  | cons d rrest =>
    refine ⟨collapseWs (d :: rrest), ?_⟩
    rw [collapseWs]
    simp [hc]

theorem collapseWs_subset :
    ∀ (l : Str) (c : Char), c ∈ collapseWs l → c ∈ l ∨ c = ' ' := by
  intro l
  induction l with
  | nil => intro c h; simp [collapseWs] at h
  | cons a rest ih =>
    intro c h
    cases rest with
    | nil =>
      simp only [collapseWs] at h
      rcases List.mem_singleton.mp h with h
      by_cases ha : pySpace a
      · right; simpa [ha] using h
      · left; simp [ha] at h; simp [h]
    | cons d rrest =>
      rw [collapseWs] at h
      by_cases h2 : pySpace a && pySpace d
      · rw [if_pos h2] at h
        rcases ih c h with h | h
        · exact Or.inl (List.mem_cons_of_mem a h)
        · exact Or.inr h
      · rw [if_neg h2] at h
        rcases List.mem_cons.mp h with h | h
        · by_cases ha : pySpace a
          · right; simpa [ha] using h
          · left; simp [ha] at h; simp [h]
        · rcases ih c h with h | h
          · exact Or.inl (List.mem_cons_of_mem a h)
          · exact Or.inr h

theorem collapseWs_innerOk :
    ∀ l : Str, lastNonSpace l = true → innerOk (collapseWs l) = true := by
  intro l
  induction l with
  | nil => simp [collapseWs, innerOk]
  | cons c rest ih =>
    intro h
    cases rest with
    | nil =>
      simp only [lastNonSpace, Bool.not_eq_true'] at h
      simp [collapseWs, innerOk, h]
    | cons d rrest =>
      have hlast : lastNonSpace (d :: rrest) = true := by simpa [lastNonSpace] using h
      have ihr := ih hlast
      rw [collapseWs]
      by_cases h2 : pySpace c && pySpace d
      · simpa [h2] using ihr
      · rw [if_neg h2]
        cases hcw : collapseWs (d :: rrest) with
        | nil => exact absurd hcw (collapseWs_ne_nil _ (by simp))
        | cons x xs =>
          rw [hcw] at ihr
          by_cases hc : pySpace c
          · have hd : pySpace d = false := by
              cases hd : pySpace d
              · rfl
              · exact absurd (by simp [hc, hd]) h2
            obtain ⟨t, ht⟩ := collapseWs_head d rrest hd
            rw [ht] at hcw
            cases hcw
            simp [innerOk, hc, hd, ihr]
          · simp [innerOk, hc, ihr]

theorem collapseWs_fixed : ∀ l : Str, innerOk l = true → collapseWs l = l := by
  intro l
  induction l with
  | nil => simp [collapseWs]
  | cons c rest ih =>
    intro h
    cases rest with
    | nil =>
      simp only [innerOk, Bool.not_eq_true'] at h
      simp [collapseWs, h]
    | cons d rrest =>
      simp only [innerOk, Bool.and_eq_true] at h
      obtain ⟨hj, hr⟩ := h
      rw [collapseWs]
      have h2 : (pySpace c && pySpace d) = false := by
        cases hc : pySpace c
        · simp
        · cases hd : pySpace d
          · simp
          · simp [hc, hd] at hj
      rw [if_neg (by simp [h2])]
      have hcfix : (if pySpace c then ' ' else c) = c := by
        cases hc : pySpace c
        · simp
        · simp only [if_pos rfl]
          simp [hc] at hj
          exact hj.1.symm
      rw [hcfix, ih hr]

theorem innerOk_lastNonSpace : ∀ l : Str, innerOk l = true → lastNonSpace l = true := by
  intro l
  induction l with
  | nil => simp [lastNonSpace]
  | cons c rest ih =>
    intro h
    cases rest with
    | nil => simpa [innerOk, lastNonSpace] using h
    | cons d rrest =>
      simp only [innerOk, Bool.and_eq_true] at h
      simpa [lastNonSpace] using ih h.2

theorem innerOk_no_newline : ∀ l : Str, innerOk l = true → ∀ c ∈ l, ¬(c = '\n') := by
  intro l
  induction l with
  | nil => simp
  | cons c rest ih =>
    intro h e he
    cases rest with
    | nil =>
      simp only [innerOk, Bool.not_eq_true'] at h
      rcases List.mem_singleton.mp he with rfl
      intro hc; subst hc; simp [pySpace] at h
    | cons d rrest =>
      simp only [innerOk, Bool.and_eq_true] at h
      rcases List.mem_cons.mp he with rfl | he
      · intro hc; subst hc
        rcases Bool.or_eq_true_iff.mp h.1 with h1 | h1
        · simp [pySpace] at h1
        · simp only [Bool.and_eq_true, beq_iff_eq] at h1
          exact absurd h1.1 (by decide)
      · exact ih h.2 e he

theorem collapseNl_fixed :
    ∀ l : Str, (∀ c ∈ l, ¬(c = '\n')) → collapseNl l = l := by
  intro l
  induction l with
  | nil => simp [collapseNl]
  | cons c rest ih =>
    intro h
    have hc : (c == '\n') = false := by
      simpa using h c (List.mem_cons_self c rest)
    cases rest with
    | nil => simp [collapseNl, hc]
    | cons d rrest =>
      have hrest := ih fun e he => h e (List.mem_cons_of_mem c he)
      rw [collapseNl, if_neg (by simp [hc]), hrest]
      simp [hc]

/-- C10 counterexample: `normalize_text` is not idempotent.  On `"! a"` the
first pass deletes `'!'` but keeps the space that followed it, producing
`" a"` with a leading space; the second pass strips that space. -/
theorem normalize_text_not_idempotent_cex :
    normalize_text (normalize_text ['!', ' ', 'a']) ≠ normalize_text ['!', ' ', 'a'] := by
  decide

/-- C10 (amended): `normalize_text` is idempotent on inputs all of whose
characters already lie in the retained whitelist `[\w\s\-.,@()$#]`; on
general input the character-deletion step can expose whitespace that only a
second pass would collapse or strip, so idempotence fails (see
`normalize_text_not_idempotent_cex`). -/
theorem normalize_text_idempotent_on_whitelist (s : Str)
    (h : ∀ c ∈ s, keepChar c = true) :
    normalize_text (normalize_text s) = normalize_text s := by
  by_cases hs : s = []
  · subst hs; rfl
  · have hns : normalize_text s = (collapseNl (collapseWs (pyStrip s))).filter keepChar := by
      rw [normalize_text, if_neg hs]
    rw [pyStrip_eq_stripTrailing_dropWhile] at hns
    set u := stripTrailing (s.dropWhile pySpace) with hu
    by_cases hun : u = []
    · rw [hun] at hns
      have hz : normalize_text s = [] := by
        rw [hns]; rfl
      rw [hz]; rfl
    · -- the stripped text has non-space head and tail
      obtain ⟨c, t, hct⟩ := List.exists_cons_of_ne_nil hun
      have hhead : pySpace c = false := by
        have h1 := stripTrailing_head _ c t (hu ▸ hct)
        cases hdw : s.dropWhile pySpace with
        | nil =>
          exfalso
          apply hun
          rw [hu, hdw]
          rfl
        | cons a l =>
          rw [hdw] at h1
          simp only [List.head?_cons, Option.some_inj] at h1
          subst h1
          exact dropWhile_head_not pySpace s a l hdw
      have hlast : lastNonSpace u = true := hu ▸ stripTrailing_lastNonSpace _
      have hinner : innerOk (collapseWs u) = true := collapseWs_innerOk u hlast
      have husub : ∀ e ∈ u, e ∈ s := by
        intro e he
        exact (List.dropWhile_sublist pySpace).mem (stripTrailing_subset _ e (hu ▸ he))
      have hkeep : ∀ e ∈ collapseWs u, keepChar e = true := by
        intro e he
        rcases collapseWs_subset u e he with he' | rfl
        · exact h e (husub e he')
        · decide
      have hnl : collapseNl (collapseWs u) = collapseWs u :=
        collapseNl_fixed _ (innerOk_no_newline _ hinner)
      have hns2 : normalize_text s = collapseWs u := by
        rw [hns, hnl, List.filter_eq_self.mpr hkeep]
      -- second pass: `collapseWs u` is already fully normalized
      have ht0n : collapseWs u ≠ [] := collapseWs_ne_nil u hun
      obtain ⟨r, hr⟩ := collapseWs_head c t hhead
      have hr' : collapseWs u = c :: r := by rw [hct, hr]
      have hdw0 : (collapseWs u).dropWhile pySpace = collapseWs u := by
        rw [hr', List.dropWhile_cons_of_neg (by simp [hhead])]
      rw [hns2, normalize_text, if_neg ht0n,
        pyStrip_eq_stripTrailing_dropWhile, hdw0,
        stripTrailing_fixed _ (innerOk_lastNonSpace _ hinner),
        collapseWs_fixed _ hinner,
        collapseNl_fixed _ (innerOk_no_newline _ hinner),
        List.filter_eq_self.mpr hkeep]

/-- C10 witness for the amended idempotence theorem at a concrete
whitelisted input. -/
theorem normalize_text_idempotent_on_whitelist_witness :
    normalize_text (normalize_text ['a', '\t', '\t', 'b', ' ']) =
      normalize_text ['a', '\t', '\t', 'b', ' '] :=
  normalize_text_idempotent_on_whitelist _ (by decide)

/-! ## Table confidence (src/output/app.py, lines 174-188) -/

/-- Python's `cell and str(cell).strip()` for a table cell, which pdfplumber
and fitz deliver as `None` or a string.  `None` and the empty string are
falsy; otherwise the cell counts iff its stripped text is non-empty (for a
string `s`, `s` truthy together with `s.strip()` truthy is equivalent to
`s.strip() ≠ ""`). -/
def filledCell : Option Str → Bool
  | none => false
  | some s => !(pyStrip s).isEmpty

/-- `total_cells = sum(len(row) for row in table)`. -/
def total_cells (table : List (List (Option Str))) : Nat :=
  (table.map List.length).sum

/-- `filled_cells = sum(1 for row in table for cell in row if cell and str(cell).strip())`. -/
def filled_cells (table : List (List (Option Str))) : Nat :=
  (table.map (fun row => row.countP filledCell)).sum

/-- `calculate_table_confidence` (src/output/app.py, lines 174-188).
Python floats are modelled by ℚ; the arithmetic here (0.7, 0.3, /5 and the
cell-count divisions) is exact in both. -/
def calculate_table_confidence (table : List (List (Option Str))) : ℚ :=
  if table = [] then 0
  else
    if total_cells table = 0 then 0
    else
      ((filled_cells table : ℚ) / (total_cells table : ℚ)) * (7/10)
        + (min 1 ((table.length : ℚ) / 5)) * (3/10)

/-- C2 counterexample: a one-row table whose single cell is the empty string
has every cell empty, yet `calculate_table_confidence` returns
`0.3 * min(1, 1/5) = 3/50`, not 0 — the structure term is awarded even when
nothing is filled. -/
theorem calculate_table_confidence_all_empty_cex :
    calculate_table_confidence [[some []]] = 3/50 ∧ ((3:ℚ)/50) ≠ 0 := by
  have h1 : total_cells [[some []]] = 1 := by decide
  have h2 : filled_cells [[some []]] = 0 := by decide
  constructor
  · rw [calculate_table_confidence, if_neg (by simp), if_neg (by rw [h1]; exact one_ne_zero),
      h1, h2]
    norm_num [min_def]
  · norm_num

/-- C2 (amended): `calculate_table_confidence` returns 0 exactly for tables
with no cells at all (no rows, or only empty rows); every table containing
at least one cell — even one whose cells are all empty — scores
`0.7 * fill_ratio + 0.3 * min(1, row_count/5)`, which is at least
`3/50 > 0`. -/
theorem calculate_table_confidence_spec (table : List (List (Option Str))) :
    (total_cells table = 0 → calculate_table_confidence table = 0)
    ∧ (total_cells table ≠ 0 →
        calculate_table_confidence table
          = ((filled_cells table : ℚ) / (total_cells table : ℚ)) * (7/10)
            + (min 1 ((table.length : ℚ) / 5)) * (3/10)
        ∧ (3:ℚ)/50 ≤ calculate_table_confidence table) := by
  constructor
  · intro h
    rw [calculate_table_confidence]
    by_cases ht : table = []
    · simp [ht]
    · simp [ht, h]
  · intro h
    have ht : table ≠ [] := by
      intro ht; exact h (by simp [ht, total_cells])
    have hval : calculate_table_confidence table
        = ((filled_cells table : ℚ) / (total_cells table : ℚ)) * (7/10)
          + (min 1 ((table.length : ℚ) / 5)) * (3/10) := by
      rw [calculate_table_confidence, if_neg ht, if_neg h]
    refine ⟨hval, ?_⟩
    rw [hval]
    have hrow : 1 ≤ table.length := List.length_pos.mpr ht
    have hmin : (1:ℚ)/5 ≤ min 1 ((table.length : ℚ) / 5) := by
      refine le_min (by norm_num) ?_
      have : (1:ℚ) ≤ (table.length : ℚ) := by exact_mod_cast hrow
      linarith
    have hfill : 0 ≤ ((filled_cells table : ℚ) / (total_cells table : ℚ)) := by
      positivity
    nlinarith

/-- C2 witness: the amended theorem applied to a concrete table with one
filled and one empty cell. -/
theorem calculate_table_confidence_spec_witness :
    (3:ℚ)/50 ≤ calculate_table_confidence [[some ['x'], none]] :=
  ((calculate_table_confidence_spec [[some ['x'], none]]).2 (by decide)).2

/-! ## Rate limiter (src/app.py, lines 126-148, `APIRateLimiter`)

Timestamps (`datetime.now()`) are modelled as rational seconds;
`timedelta(minutes=1)` is the constant 60.  `config.api_rate_limit_per_minute`
is the `limit` parameter.  The `asyncio.Lock` makes the check-and-record step
atomic, so the sequential function below is the whole behaviour. -/

/-- `self.call_times = [t for t in self.call_times if now - t < timedelta(minutes=1)]`. -/
def pruneCalls (now : ℚ) (call_times : List ℚ) : List ℚ :=
  call_times.filter (fun t => now - t < 60)

/-- `APIRateLimiter.acquire` (src/app.py, lines 133-143): prune entries older
than one minute, grant and record `now` if fewer than `limit` remain,
otherwise deny.  Returns (granted, new call_times). -/
def rateLimiterAcquire (limit : Nat) (call_times : List ℚ) (now : ℚ) : Bool × List ℚ :=
  let pruned := pruneCalls now call_times
  if pruned.length < limit then (true, pruned ++ [now]) else (false, pruned)

/-- Run a sequence of `acquire` calls (at the given timestamps, in order)
starting from the empty recorded list, returning the final recorded list. -/
def runAcquires (limit : Nat) (times : List ℚ) : List ℚ :=
  times.foldl (fun s t => (rateLimiterAcquire limit s t).2) []

theorem rateLimiterAcquire_state_le (limit : Nat) (s : List ℚ) (now : ℚ)
    (h : s.length ≤ limit) : (rateLimiterAcquire limit s now).2.length ≤ limit := by
  rw [rateLimiterAcquire]
  have hp : (pruneCalls now s).length ≤ s.length := List.length_filter_le _ _
  by_cases hlt : (pruneCalls now s).length < limit
  · simp only [hlt, if_pos]
    simp [List.length_append]
    omega
  · simp only [hlt, if_neg, not_false_iff]
    simp
    omega

/-- C5: the rate limiter (1) grants exactly when fewer than `limit` recorded
grants fall inside the trailing 60-second window, recording the new
timestamp on a grant and never otherwise; (2) starting from empty, the
recorded list never exceeds `limit`; (3) once the oldest recorded grant has
aged 60 seconds or more, an acquire is granted again. -/
theorem rateLimiterAcquire_spec :
    (∀ (limit : Nat) (s : List ℚ) (now : ℚ),
        ((rateLimiterAcquire limit s now).1 = true ↔ (pruneCalls now s).length < limit)
        ∧ (rateLimiterAcquire limit s now).2
            = pruneCalls now s
              ++ (if (pruneCalls now s).length < limit then [now] else []))
    ∧ (∀ (limit : Nat) (times : List ℚ), (runAcquires limit times).length ≤ limit)
    ∧ (∀ (limit : Nat) (s : List ℚ) (now old : ℚ), old ∈ s → s.length ≤ limit →
        60 ≤ now - old → (rateLimiterAcquire limit s now).1 = true) := by
  refine ⟨fun limit s now => ?_, fun limit times => ?_, fun limit s now old hm hlen hage => ?_⟩
  · rw [rateLimiterAcquire]
    by_cases hlt : (pruneCalls now s).length < limit
    · simp [hlt]
    · simp [hlt]
  · rw [runAcquires]
    induction times using List.reverseRecOn with
    | nil => simp
    | append_singleton ts t ih =>
      rw [List.foldl_append, List.foldl_cons, List.foldl_nil]
      exact rateLimiterAcquire_state_le limit _ t ih
  · rw [rateLimiterAcquire]
    have hdrop : (pruneCalls now s).length < s.length := by
      apply List.length_filter_lt_length_iff_exists.mpr
      exact ⟨old, hm, by simp; linarith⟩
    have : (pruneCalls now s).length < limit := lt_of_lt_of_le hdrop hlen
    simp [this]

/-- C5 witness: limit 2, grants recorded at times 0 and 30; at time 61 the
grant at 0 has aged out and the acquire succeeds. -/
theorem rateLimiterAcquire_spec_witness :
    (rateLimiterAcquire 2 [0, 30] 61).1 = true :=
  rateLimiterAcquire_spec.2.2 2 [0, 30] 61 0 (by simp) (by simp) (by norm_num)

/-! ## JSON candidate model (the structured extraction of src/output/app.py) -/

/-- Shorthand: a Lean string literal as a `Str`. -/
def strL (s : String) : Str := s.toList

/-- Values occurring in the parsed Gemini JSON: strings, objects (Python
dicts, keys unique), booleans and null.  This covers every value the
extraction schema of `process_insurance_certificate` can contain. -/
inductive Json where
  | str (s : Str)
  | obj (fields : List (Str × Json))
  | bool (b : Bool)
  | null

/-- Python dict lookup `key in d` / `d[key]`.  Keys of a Python dict are
unique, so first-match lookup is the dict lookup. -/
def jlookup (fields : List (Str × Json)) (k : Str) : Option Json :=
  match fields with
  | [] => none
  | (k', v) :: rest => if k' = k then some v else jlookup rest k

/-- Python truthiness of a `Json` value (`if current:`). -/
def pyTruthy : Json → Bool
  | .str s => !s.isEmpty
  | .obj fields => !fields.isEmpty
  | .bool b => b
  | .null => false

/-- The final filter of `get_nested_value`:
`current if current and str(current).strip() else None`.  For a string this
is "stripped text non-empty"; for every truthy non-string value,
`str(value)` (`"True"`, `"{...}"`) is never whitespace-only, so the filter
is plain truthiness. -/
def presentValue : Json → Bool
  | .str s => !(pyStrip s).isEmpty
  | v => pyTruthy v

/-- `path.split('.')` (Python `str.split` on a single dot). -/
def splitOnDot : Str → List Str
  | [] => [[]]
  | c :: rest =>
    if c = '.' then [] :: splitOnDot rest
    else
      match splitOnDot rest with
      | [] => [[c]]
      | p :: ps => (c :: p) :: ps

/-- The key-walking loop of `get_nested_value`: descend while the current
value is a dict containing the key, else `None`. -/
def walkPath : Json → List Str → Option Json
  | cur, [] => some cur
  | .obj fields, k :: ks =>
    match jlookup fields k with
    | some v => walkPath v ks
    | none => none
  | _, _ :: _ => none

/-- `get_nested_value` (src/output/app.py, lines 274-285): resolve a
dot-notation path, tolerating absent intermediate objects (returning `None`),
then drop falsy or whitespace-only results. -/
def get_nested_value (data : Json) (path : Str) : Option Json :=
  match walkPath data (splitOnDot path) with
  | none => none
  | some v => if presentValue v then some v else none

/-- The `required_paths` list of `validate_required_fields`
(src/output/app.py, lines 260-266). -/
def required_paths : List Str :=
  [ strL "certificate_number",
    strL "certificate_information.certificate_type",
    strL "certificate_information.issued_date",
    strL "policies.commercial_general_liability.policy_number",
    strL "policies.workers_compensation_and_employers_liability.policy_number" ]

/-- `validate_required_fields` (src/output/app.py, lines 258-272): true iff
every required path resolves to a present value (the source loop returns
`False` at the first missing path, which equals this `all`). -/
def validate_required_fields (data : Json) : Bool :=
  required_paths.all (fun p => (get_nested_value data p).isSome)

/-! ## Validation pipeline (src/output/app.py, lines 258-465) -/

/-- Python `d.get(key, default)`.  A `.get` on a non-dict raises
`AttributeError` in Python; every call modelled here happens after stage 1
(`validate_required_fields`) has ensured the candidate is a dict, so the
fallthrough branch is unreachable in the modelled flows. -/
def jget (data : Json) (k : Str) (dflt : Json) : Json :=
  match data with
  | .obj fields => (jlookup fields k).getD dflt
  | _ => dflt

/-- Python substring test `needle in hay`. -/
def pyInStr : Str → Str → Bool
  | needle, [] => needle.isEmpty
  | needle, c :: rest => needle.isPrefixOf (c :: rest) || pyInStr needle rest

/-- `consensus_check` (src/output/app.py, lines 413-432): a present
certificate number must occur verbatim in at least one of the two raw
texts.  A truthy non-string certificate number makes `cert_number in
fitz_text` raise `TypeError`, which the function's `except Exception`
converts to `False`. -/
def consensus_check (extracted_data : Json) (fitz_text plumber_text : Str) : Bool :=
  match jget extracted_data (strL "certificate_number") (.str []) with
  | .str s =>
    if s.isEmpty then true
    else pyInStr s fitz_text || pyInStr s plumber_text
  | v => if pyTruthy v then false else true

/-! ### Date parsing: `datetime.strptime(s, "%Y-%m-%d")`

CPython's `_strptime` compiles the format to the anchored regex
`(?P<Y>\d\d\d\d)-(?P<m>1[0-2]|0[1-9]|[1-9])-(?P<d>3[01]|[12]\d|0[1-9]|[1-9])`
and requires the whole string to be consumed; `datetime` then validates the
calendar date and requires year ≥ 1.  So the month and day may be written
with one digit ("2024-1-1" parses) but the year needs exactly four. -/

def digitVal (c : Char) : Nat := c.toNat - 48

/-- Exactly four digits (`\d\d\d\d`), returning the year and remainder. -/
def parse4Digits : Str → Option (Nat × Str)
  | a :: b :: c :: d :: rest =>
    if pyDigit a && pyDigit b && pyDigit c && pyDigit d then
      some (digitVal a * 1000 + digitVal b * 100 + digitVal c * 10 + digitVal d, rest)
    else none
  | _ => none

/-- Alternatives of `1[0-2]|0[1-9]|[1-9]` in regex order, as (value, rest). -/
def monthCands : Str → List (Nat × Str)
  | a :: b :: rest =>
    (if a = '1' && (b = '0' || b = '1' || b = '2') then [(10 + digitVal b, rest)] else [])
      ++ (if a = '0' && pyDigit b && b ≠ '0' then [(digitVal b, rest)] else [])
      ++ (if pyDigit a && a ≠ '0' then [(digitVal a, b :: rest)] else [])
  | [a] => if pyDigit a && a ≠ '0' then [(digitVal a, [])] else []
  | [] => []

/-- Alternatives of `3[01]|[12]\d|0[1-9]|[1-9]` in regex order. -/
def dayCands : Str → List (Nat × Str)
  | a :: b :: rest =>
    (if a = '3' && (b = '0' || b = '1') then [(30 + digitVal b, rest)] else [])
      ++ (if (a = '1' || a = '2') && pyDigit b then [(digitVal a * 10 + digitVal b, rest)] else [])
      ++ (if a = '0' && pyDigit b && b ≠ '0' then [(digitVal b, rest)] else [])
      ++ (if pyDigit a && a ≠ '0' then [(digitVal a, b :: rest)] else [])
  | [a] => if pyDigit a && a ≠ '0' then [(digitVal a, [])] else []
  | [] => []

def isLeapYear (y : Nat) : Bool := y % 4 = 0 && (y % 100 ≠ 0 || y % 400 = 0)

def daysInMonth (y m : Nat) : Nat :=
  if m = 2 then (if isLeapYear y then 29 else 28)
  else if m = 4 || m = 6 || m = 9 || m = 11 then 30
  else 31

/-- The full `strptime("%Y-%m-%d")` followed by the `datetime` constructor:
anchored match of the whole string (backtracking over the month/day
alternatives), then calendar validity and year ≥ 1. -/
def strptimeYmd (s : Str) : Option (Nat × Nat × Nat) :=
  match parse4Digits s with
  | some (y, '-' :: r1) =>
    (monthCands r1).findSome? (fun mc =>
      match mc.2 with
      | '-' :: r3 =>
        (dayCands r3).findSome? (fun dc =>
          if dc.2 = [] then
            if 1 ≤ y && dc.1 ≤ daysInMonth y mc.1 then some (y, mc.1, dc.1) else none
          else none)
      | _ => none)
  | _ => none

/-- Chronological key: lexicographic (y, m, d) as a single Nat. -/
def dateKey : Nat × Nat × Nat → Nat
  | (y, m, d) => y * 10000 + m * 100 + d

/-- One iteration of the parse loop of `validate_date_sequence`: an absent
field is skipped; a present string field must `strptime`-parse (else
`ValueError` → `return False`); a present non-string raises `TypeError`,
which the enclosing `except Exception` also turns into `False`. -/
def parseDateField : Option Json → Except Unit (Option (Nat × Nat × Nat))
  | none => .ok none
  | some (.str s) =>
    match strptimeYmd s with
    | some d => .ok (some d)
    | none => .error ()
  | some _ => .error ()

/-- Local `issued_date` of `validate_date_sequence` (line 291). -/
def issued_date (data : Json) : Option Json :=
  get_nested_value data (strL "certificate_information.issued_date")

/-- Local `cgl_effective` of `validate_date_sequence` (line 292). -/
def cgl_effective (data : Json) : Option Json :=
  get_nested_value data (strL "policies.commercial_general_liability.effective_date")

/-- Local `cgl_expiration` of `validate_date_sequence` (line 293). -/
def cgl_expiration (data : Json) : Option Json :=
  get_nested_value data (strL "policies.commercial_general_liability.expiration_date")

/-- Local `wc_effective` of `validate_date_sequence` (line 294). -/
def wc_effective (data : Json) : Option Json :=
  get_nested_value data (strL "policies.workers_compensation_and_employers_liability.effective_date")

/-- Local `wc_expiration` of `validate_date_sequence` (line 295). -/
def wc_expiration (data : Json) : Option Json :=
  get_nested_value data (strL "policies.workers_compensation_and_employers_liability.expiration_date")

/-- `validate_date_sequence` (src/output/app.py, lines 287-326): parse the
five date fields in source order, failing on the first bad one, then require
effective < expiration for each policy block where both parsed. -/
def validate_date_sequence (data : Json) : Bool :=
  match parseDateField (issued_date data) with
  | .error _ => false
  | .ok _ =>
  match parseDateField (cgl_effective data) with
  | .error _ => false
  | .ok cglEff =>
  match parseDateField (cgl_expiration data) with
  | .error _ => false
  | .ok cglExp =>
  match parseDateField (wc_effective data) with
  | .error _ => false
  | .ok wcEff =>
  match parseDateField (wc_expiration data) with
  | .error _ => false
  | .ok wcExp =>
    (match cglEff, cglExp with
     | some a, some b => decide (dateKey a < dateKey b)
     | _, _ => true)
    && (match wcEff, wcExp with
        | some a, some b => decide (dateKey a < dateKey b)
        | _, _ => true)

/-! ### Certificate-number format (src/output/app.py, lines 328-341)

The four patterns are fully anchored (`^...$`) and each character class
excludes `-`, so `re.match` with backtracking accepts exactly the strings
described by the structural checks below: a maximal run of class characters
must end exactly at the literal `-` (shorter backtracked runs still face a
class character, never the dash), and a trailing `{m,n}$` piece accepts
exactly an all-class string of that length.  The classes are uppercase-only:
the patterns carry no `re.IGNORECASE`. -/

def upperAlpha (c : Char) : Bool := 'A' ≤ c && c ≤ 'Z'

def upperAlnum (c : Char) : Bool := upperAlpha c || pyDigit c

/-- `^[A-Z0-9]{8,20}$`. -/
def certPat1 (s : Str) : Bool :=
  8 ≤ s.length && s.length ≤ 20 && s.all upperAlnum

/-- `^[A-Z]{2,4}-\d{6,12}$`. -/
def certPat2 (s : Str) : Bool :=
  match s.dropWhile upperAlpha with
  | '-' :: b =>
    2 ≤ (s.takeWhile upperAlpha).length && (s.takeWhile upperAlpha).length ≤ 4
      && 6 ≤ b.length && b.length ≤ 12 && b.all pyDigit
  | _ => false

/-- `^\d{8,15}$`. -/
def certPat3 (s : Str) : Bool :=
  8 ≤ s.length && s.length ≤ 15 && s.all pyDigit

/-- `^[A-Z0-9]{2,6}-[A-Z0-9]{6,12}$`. -/
def certPat4 (s : Str) : Bool :=
  match s.dropWhile upperAlnum with
  | '-' :: b =>
    2 ≤ (s.takeWhile upperAlnum).length && (s.takeWhile upperAlnum).length ≤ 6
      && 6 ≤ b.length && b.length ≤ 12 && b.all upperAlnum
  | _ => false

/-- `validate_certificate_number_format` (src/output/app.py, lines 328-341):
falsy input fails, otherwise any of the four patterns must match the
stripped string. -/
def validate_certificate_number_format (cert_number : Str) : Bool :=
  if cert_number.isEmpty then false
  else
    certPat1 (pyStrip cert_number) || certPat2 (pyStrip cert_number)
      || certPat3 (pyStrip cert_number) || certPat4 (pyStrip cert_number)

/-! ### Confidence scoring (src/output/app.py, lines 343-411) -/

/-- `int(re.sub(r'[^\d]', '', s))`: delete non-digits, then parse; the empty
digit string raises `ValueError` (mapped to `none`). -/
def intOfDigits (s : Str) : Option Nat :=
  if (s.filter pyDigit).isEmpty then none
  else some ((s.filter pyDigit).foldl (fun n c => n * 10 + digitVal c) 0)

/-- `validate_policy_limits` (src/output/app.py, lines 381-411).  A truthy
non-dict `limits` value or non-string monetary field raises
(`AttributeError`/`TypeError`) inside the `try`, and `except Exception`
returns `False`. -/
def validate_policy_limits (data : Json) : Bool :=
  match get_nested_value data (strL "policies.commercial_general_liability.limits") with
  | none => true
  | some (.obj fields) =>
    let occurrence := (jlookup fields (strL "each_occurrence")).getD (.str [])
    let aggregate := (jlookup fields (strL "general_aggregate")).getD (.str [])
    if pyTruthy occurrence && pyTruthy aggregate then
      match occurrence, aggregate with
      | .str so, .str sa =>
        match intOfDigits so, intOfDigits sa with
        | some ov, some av =>
          if 0 < ov && 0 < av then
            if av < ov then false
            else if !(100000 ≤ ov && ov ≤ 10000000) then false
            else true
          else true
        | _, _ => false
      | _, _ => false
    else true
  | some _ => false

/-- The three-path required subset of `calculate_extraction_confidence`. -/
def confidence_required_fields : List Str :=
  [ strL "certificate_number",
    strL "policies.commercial_general_liability.policy_number",
    strL "policies.workers_compensation_and_employers_liability.policy_number" ]

/-- Sub-score 1, field completeness: `filled_required / len(required_fields)`. -/
def completeness_score (data : Json) : ℚ :=
  (confidence_required_fields.countP (fun f => (get_nested_value data f).isSome) : ℚ)
    / (confidence_required_fields.length : ℚ)

/-- Sub-score 2, date validity: `1.0 if date_valid else 0.3`. -/
def dates_score (data : Json) : ℚ :=
  if validate_date_sequence data then 1 else 3/10

/-- `validate_certificate_number_format(data.get("certificate_number", ""))`
lifted to a `Json` argument.  A falsy non-string hits the
`if not cert_number` early exit (false); a truthy non-string would raise
`AttributeError` at `.strip()` in Python — such a value never reaches this
call inside `validate_extraction` because `consensus_check` (stage 2)
rejects it first, so the `false` chosen here is immaterial to the modelled
flows. -/
def cert_format_ok : Json → Bool
  | .str s => validate_certificate_number_format s
  | _ => false

/-- Sub-score 3, certificate-number format: `1.0 if cert_valid else 0.2`. -/
def cert_format_score (data : Json) : ℚ :=
  if cert_format_ok (jget data (strL "certificate_number") (.str [])) then 1 else 1/5

/-- Sub-score 4, text quality: `min(1.0, len(pdf_text.strip()) / 1000)`. -/
def text_quality_score (pdf_text : Str) : ℚ :=
  min 1 (((pyStrip pdf_text).length : ℚ) / 1000)

/-- Sub-score 5, policy-limit sanity: `1.0 if limits_valid else 0.5`. -/
def limits_score (data : Json) : ℚ :=
  if validate_policy_limits data then 1 else 1/2

/-- `calculate_extraction_confidence` (src/output/app.py, lines 343-379):
the weighted sum with weights 0.3, 0.25, 0.2, 0.15, 0.1 (written as exact
rationals). -/
def calculate_extraction_confidence (data : Json) (pdf_text : Str) : ℚ :=
  completeness_score data * (3/10)
    + dates_score data * (1/4)
    + cert_format_score data * (1/5)
    + text_quality_score pdf_text * (3/20)
    + limits_score data * (1/10)

/-- The four typed validation failures of src/output/app.py, lines 59-69. -/
inductive ValidationErr where
  | missingField
  | consensus
  | temporal
  | format

/-- Successful validation result: the candidate plus the `_metadata`
confidence score (`validation_passed` is always true and the wall-clock
`extraction_timestamp` is outside the model). -/
structure ValidatedData where
  data : Json
  confidence_score : ℚ

/-- `validate_extraction` (src/output/app.py, lines 434-465): the five
ordered stages; each `raise` is an `Except.error`. -/
def validate_extraction (raw_data : Json) (pdf_text fitz_text plumber_text : Str) :
    Except ValidationErr ValidatedData :=
  if !validate_required_fields raw_data then .error .missingField
  else if !consensus_check raw_data fitz_text plumber_text then .error .consensus
  else if !validate_date_sequence raw_data then .error .temporal
  else
    if pyTruthy (jget raw_data (strL "certificate_number") (.str []))
        && !cert_format_ok (jget raw_data (strL "certificate_number") (.str [])) then
      .error .format
    else .ok ⟨raw_data, calculate_extraction_confidence raw_data pdf_text⟩

-- Sanity checks of the strptime model against CPython behaviour.

theorem strptimeYmd_padded : strptimeYmd (strL "2024-01-01") = some (2024, 1, 1) := by decide

theorem strptimeYmd_unpadded : strptimeYmd (strL "2024-1-1") = some (2024, 1, 1) := by decide

theorem strptimeYmd_bad_day : strptimeYmd (strL "2023-02-29") = none := by decide

theorem strptimeYmd_leap_day : strptimeYmd (strL "2024-02-29") = some (2024, 2, 29) := by decide

theorem strptimeYmd_short_year : strptimeYmd (strL "999-01-01") = none := by decide

theorem strptimeYmd_trailing : strptimeYmd (strL "2024-01-01 ") = none := by decide

theorem strptimeYmd_bad_month : strptimeYmd (strL "2024-13-01") = none := by decide

/-- C6: `validate_extraction` fails with MissingField on every candidate in
which any of the five fixed required dot-notation paths does not resolve to
a present (non-empty trimmed) value — including when an intermediate object
is absent, since `get_nested_value` is a total function that answers `none`
in that case rather than erroring. -/
theorem validate_extraction_missing_required (data : Json)
    (pdf_text fitz_text plumber_text : Str) (p : Str)
    (hp : p ∈ required_paths) (hmiss : get_nested_value data p = none) :
    validate_extraction data pdf_text fitz_text plumber_text
      = .error .missingField := by
  have hvrf : validate_required_fields data = false := by
    rw [validate_required_fields]
    exact List.all_eq_false.mpr ⟨p, hp, by simp [hmiss]⟩
  rw [validate_extraction, hvrf]
  simp

/-- C6 witness: the empty candidate is missing
`policies.commercial_general_liability.policy_number` (the `policies`
intermediate object is absent entirely) and is rejected with MissingField. -/
theorem validate_extraction_missing_required_witness :
    validate_extraction (Json.obj []) [] [] [] = .error .missingField :=
  validate_extraction_missing_required (Json.obj []) [] [] []
    (strL "policies.commercial_general_liability.policy_number")
    (by decide) rfl

/-! ## C7: the Temporal stage -/

/-- The Temporal-stage failure condition, written as the claim states it
(with "parses" meaning `strptime("%Y-%m-%d")`): some present date field
fails to parse, or a policy block has both dates parsed with effective not
strictly earlier than expiration. -/
def temporalViolation (data : Json) : Prop :=
  (parseDateField (issued_date data) = .error ()
    ∨ parseDateField (cgl_effective data) = .error ()
    ∨ parseDateField (cgl_expiration data) = .error ()
    ∨ parseDateField (wc_effective data) = .error ()
    ∨ parseDateField (wc_expiration data) = .error ())
  ∨ (∃ a b, parseDateField (cgl_effective data) = .ok (some a)
      ∧ parseDateField (cgl_expiration data) = .ok (some b)
      ∧ dateKey b ≤ dateKey a)
  ∨ (∃ a b, parseDateField (wc_effective data) = .ok (some a)
      ∧ parseDateField (wc_expiration data) = .ok (some b)
      ∧ dateKey b ≤ dateKey a)

theorem validate_date_sequence_false_iff (data : Json) :
    validate_date_sequence data = false ↔ temporalViolation data := by
  rw [validate_date_sequence, temporalViolation]
  cases h1 : parseDateField (issued_date data) with
  | error e => cases e; simp [h1]
  | ok o1 =>
  cases h2 : parseDateField (cgl_effective data) with
  | error e => cases e; simp [h1, h2]
  | ok o2 =>
  cases h3 : parseDateField (cgl_expiration data) with
  | error e => cases e; simp [h1, h2, h3]
  | ok o3 =>
  cases h4 : parseDateField (wc_effective data) with
  | error e => cases e; simp [h1, h2, h3, h4]
  | ok o4 =>
  cases h5 : parseDateField (wc_expiration data) with
  | error e => cases e; simp [h1, h2, h3, h4, h5]
  | ok o5 =>
    simp only [h1, h2, h3, h4, h5]
    cases o2 <;> cases o3 <;> cases o4 <;> cases o5 <;>
      (simp [not_lt]; try omega)

/-- C7 (amended): for every candidate that passes the completeness and
consensus stages, `validate_extraction` raises Temporal if and only if some
present date field does not parse under `strptime("%Y-%m-%d")` — which
demands a four-digit year but accepts one- or two-digit month and day, and
validates the calendar date — or some policy block has both dates parsed
with effective not strictly earlier than expiration. -/
theorem validate_extraction_temporal_iff (data : Json) (pdf fitz plumber : Str)
    (h1 : validate_required_fields data = true)
    (h2 : consensus_check data fitz plumber = true) :
    (validate_extraction data pdf fitz plumber = .error .temporal)
      ↔ temporalViolation data := by
  have hve : validate_extraction data pdf fitz plumber
      = (if !validate_date_sequence data then .error .temporal
         else if pyTruthy (jget data (strL "certificate_number") (.str []))
             && !cert_format_ok (jget data (strL "certificate_number") (.str [])) then
           .error .format
         else .ok ⟨data, calculate_extraction_confidence data pdf⟩) := by
    rw [validate_extraction, h1, h2]
    rfl
  rw [hve]
  cases hd : validate_date_sequence data with
  | false =>
    simp
    exact (validate_date_sequence_false_iff data).mp hd
  | true =>
    rw [if_neg (by simp)]
    constructor
    · intro hcon
      split at hcon <;> simp at hcon
    · intro hviol
      have hfalse := (validate_date_sequence_false_iff data).mpr hviol
      rw [hd] at hfalse
      simp at hfalse

/-- Candidate builder used by the concrete test inputs: the full extraction
schema with the given certificate number and the five date fields. -/
def mkCand (cert issued cglEff cglExp wcEff wcExp : Str) : Json :=
  Json.obj [
    (strL "certificate_number", .str cert),
    (strL "certificate_information", .obj [
      (strL "certificate_type", .str (strL "COI")),
      (strL "issued_date", .str issued)]),
    (strL "policies", .obj [
      (strL "commercial_general_liability", .obj [
        (strL "policy_number", .str (strL "GL123")),
        (strL "effective_date", .str cglEff),
        (strL "expiration_date", .str cglExp),
        (strL "limits", .obj [
          (strL "each_occurrence", .str (strL "1000000")),
          (strL "general_aggregate", .str (strL "2000000"))])]),
      (strL "workers_compensation_and_employers_liability", .obj [
        (strL "policy_number", .str (strL "WC1")),
        (strL "effective_date", .str wcEff),
        (strL "expiration_date", .str wcExp)])])]

/-- Candidate with workers-compensation effective `2024-01-01` and
expiration `2023-01-01`, every other field well-formed. -/
def temporalWitnessCand : Json :=
  mkCand (strL "AB-123456") (strL "2024-01-01")
    (strL "2024-01-01") (strL "2025-01-01")
    (strL "2024-01-01") (strL "2023-01-01")

/-- C7 witness: the amended theorem applied to the workers-compensation
example of the claim, which is rejected with Temporal. -/
theorem validate_extraction_temporal_iff_witness :
    validate_extraction temporalWitnessCand [] (strL "AB-123456") []
      = .error .temporal :=
  (validate_extraction_temporal_iff temporalWitnessCand [] (strL "AB-123456") []
      (by decide) (by decide)).mpr
    (Or.inr (Or.inr ⟨(2024, 1, 1), (2023, 1, 1), rfl, rfl, by decide⟩))

/-- The claim's literal reading of "parses strictly as YYYY-MM-DD":
four-digit year, two-digit month, two-digit day, dashes in between, valid
calendar date.  Written from the spec's words, to compare with the source's
`strptimeYmd`. -/
def specStrictYmd : Str → Bool
  | [y1, y2, y3, y4, s1, m1, m2, s2, d1, d2] =>
    pyDigit y1 && pyDigit y2 && pyDigit y3 && pyDigit y4
      && (s1 == '-') && (s2 == '-')
      && pyDigit m1 && pyDigit m2 && pyDigit d1 && pyDigit d2
      && (let y := digitVal y1 * 1000 + digitVal y2 * 100 + digitVal y3 * 10 + digitVal y4
          let m := digitVal m1 * 10 + digitVal m2
          let d := digitVal d1 * 10 + digitVal d2
          decide (1 ≤ y) && decide (1 ≤ m) && decide (m ≤ 12)
            && decide (1 ≤ d) && decide (d ≤ daysInMonth y m))
  | _ => false

/-- Observer: is the outcome exactly a Temporal failure? -/
def isTemporalError : Except ValidationErr ValidatedData → Bool
  | .error .temporal => true
  | _ => false

/-- Candidate identical to a fully valid one except that its issued date is
written `2024-1-1` (unpadded month and day). -/
def unpaddedDateCand : Json :=
  mkCand (strL "AB-123456") (strL "2024-1-1")
    (strL "2024-01-01") (strL "2025-01-01")
    (strL "2024-01-01") (strL "2025-01-01")

/-- C7 counterexample to the claim as stated: this candidate passes the
completeness and consensus stages and has a present date field
(`issued_date = "2024-1-1"`) that does NOT parse strictly as `YYYY-MM-DD`
(month and day are not two-digit), so the claim requires a Temporal
failure; but `strptime("%Y-%m-%d")` accepts unpadded month and day, so the
code raises nothing. -/
theorem validate_extraction_temporal_strict_cex :
    validate_required_fields unpaddedDateCand = true
    ∧ consensus_check unpaddedDateCand (strL "AB-123456") [] = true
    ∧ issued_date unpaddedDateCand = some (.str (strL "2024-1-1"))
    ∧ specStrictYmd (strL "2024-1-1") = false
    ∧ isTemporalError (validate_extraction unpaddedDateCand [] (strL "AB-123456") [])
        = false :=
  ⟨by decide, by decide, rfl, by decide, by decide⟩

/-! ## C8: the Format stage -/

/-- C8 (amended): for every candidate that passes completeness, consensus
and temporal with a present (non-empty) string certificate number `c`,
`validate_extraction` raises Format exactly when the stripped `c` matches
none of the four structural patterns — which require UPPERCASE letters:
8-20 uppercase alphanumeric; 2-4 uppercase letters, dash, 6-12 digits; 8-15
digits; 2-6 uppercase alphanumeric, dash, 6-12 uppercase alphanumeric. -/
theorem validate_extraction_format_iff (data : Json) (pdf fitz plumber : Str) (c : Str)
    (h1 : validate_required_fields data = true)
    (h2 : consensus_check data fitz plumber = true)
    (h3 : validate_date_sequence data = true)
    (hcert : jget data (strL "certificate_number") (.str []) = .str c)
    (hne : c ≠ []) :
    (validate_extraction data pdf fitz plumber = .error .format)
      ↔ (certPat1 (pyStrip c) || certPat2 (pyStrip c)
          || certPat3 (pyStrip c) || certPat4 (pyStrip c)) = false := by
  have hve : validate_extraction data pdf fitz plumber
      = (if pyTruthy (jget data (strL "certificate_number") (.str []))
            && !cert_format_ok (jget data (strL "certificate_number") (.str [])) then
           .error .format
         else .ok ⟨data, calculate_extraction_confidence data pdf⟩) := by
    rw [validate_extraction, h1, h2, h3]
    rfl
  rw [hve, hcert]
  have htruthy : pyTruthy (Json.str c) = true := by
    rw [pyTruthy]
    simpa using hne
  have hfmt : cert_format_ok (Json.str c)
      = (certPat1 (pyStrip c) || certPat2 (pyStrip c)
          || certPat3 (pyStrip c) || certPat4 (pyStrip c)) := by
    rw [cert_format_ok, validate_certificate_number_format,
      if_neg (by simpa using hne)]
  rw [htruthy, hfmt]
  cases hpat : (certPat1 (pyStrip c) || certPat2 (pyStrip c)
      || certPat3 (pyStrip c) || certPat4 (pyStrip c)) with
  | false => simp
  | true => simp

/-- Candidate whose certificate number is `"!!!"`, other fields valid. -/
def bangCertCand : Json :=
  mkCand (strL "!!!") (strL "2024-01-01")
    (strL "2024-01-01") (strL "2025-01-01")
    (strL "2024-01-01") (strL "2025-01-01")

/-- C8 witness: by the amended theorem, `"!!!"` (present, matching no
pattern) is rejected with Format, while `"AB-123456"` satisfies the
uppercase letters-dash-digits pattern. -/
theorem validate_extraction_format_iff_witness :
    validate_extraction bangCertCand [] (strL "!!!") [] = .error .format
    ∧ validate_certificate_number_format (strL "AB-123456") = true :=
  ⟨(validate_extraction_format_iff bangCertCand [] (strL "!!!") [] (strL "!!!")
      (by decide) (by decide) (by decide) rfl (by decide)).mpr (by decide),
   by decide⟩

/-- "Alphanumeric" and "letters" as the spec words them: both letter cases
allowed.  Written from the spec's words for comparison with the source
classes, which are uppercase-only. -/
def specAlpha (c : Char) : Bool := ('a' ≤ c && c ≤ 'z') || ('A' ≤ c && c ≤ 'Z')

def specAlnum (c : Char) : Bool := specAlpha c || pyDigit c

/-- Spec-worded pattern "2-4 letters, dash, 6-12 digits". -/
def specPat2 (s : Str) : Bool :=
  match s.dropWhile specAlpha with
  | '-' :: b =>
    2 ≤ (s.takeWhile specAlpha).length && (s.takeWhile specAlpha).length ≤ 4
      && 6 ≤ b.length && b.length ≤ 12 && b.all pyDigit
  | _ => false

/-- Candidate whose certificate number is `"ab-123456"` (lowercase), other
fields valid. -/
def lowerCertCand : Json :=
  mkCand (strL "ab-123456") (strL "2024-01-01")
    (strL "2024-01-01") (strL "2025-01-01")
    (strL "2024-01-01") (strL "2025-01-01")

/-- C8 counterexample to the claim as stated: `"ab-123456"` is "2-4
letters, dash, 6-12 digits", so by the claim's pattern descriptions the
Format stage should accept it; but the source regexes have no
`re.IGNORECASE` and their classes are `[A-Z]`/`[A-Z0-9]`, so the candidate
— which passes stages 1-3 — is rejected with Format. -/
theorem validate_extraction_format_case_cex :
    validate_required_fields lowerCertCand = true
    ∧ consensus_check lowerCertCand (strL "ab-123456") [] = true
    ∧ validate_date_sequence lowerCertCand = true
    ∧ specPat2 (strL "ab-123456") = true
    ∧ validate_extraction lowerCertCand [] (strL "ab-123456") [] = .error .format :=
  ⟨by decide, by decide, by decide, by decide, by rfl⟩

/-! ## Per-request workflows after a successful JSON parse -/

/-- Envelope built by `process_insurance_certificate` once the inference
response has parsed as JSON (src/output/app.py, lines 700-736).  The
success branch carries the validated data, its confidence score and
`needs_human_review = confidence < 0.7`; the `except ValidationError`
branch carries the raw candidate, the warning list and a top-level
`needs_human_review: True`. -/
structure PicResult where
  success : Bool
  data : Json
  confidence : Option ℚ
  needs_human_review : Bool
  validation_warnings : List ValidationErr

/-- The post-parse tail of `process_insurance_certificate`: apply the
validation pipeline, recovering typed validation failures into a successful
envelope with the raw candidate and a review flag. -/
def pic_handle_parsed (structured_data : Json) (pdf_text fitz_text plumber_text : Str) :
    PicResult :=
  match validate_extraction structured_data pdf_text fitz_text plumber_text with
  | .ok v =>
    { success := true
      data := v.data
      confidence := some v.confidence_score
      needs_human_review := decide (v.confidence_score < 7/10)
      validation_warnings := [] }
  | .error ve =>
    { success := true
      data := structured_data
      confidence := none
      needs_human_review := true
      validation_warnings := [ve] }

/-- Terminal request status written to the status store. -/
inductive ReqStatus where
  | completed
  | failed

/-- Outcome of the async worker `process_single_request` (src/app.py,
lines 184-282) from the point the inference response has parsed as JSON.
The inner `try` catches only `json.JSONDecodeError`; a typed
`ValidationError` raised by `validate_extraction` propagates to the outer
`except Exception`, which sets status "failed" and returns an error
envelope without the candidate. -/
structure PsrResult where
  success : Bool
  finalStatus : ReqStatus
  data : Option Json
  needs_human_review : Option Bool

/-- The post-parse tail of `process_single_request`. -/
def psr_handle_parsed (structured_data : Json) (pdf_text fitz_text plumber_text : Str) :
    PsrResult :=
  match validate_extraction structured_data pdf_text fitz_text plumber_text with
  | .ok v =>
    { success := true
      finalStatus := .completed
      data := some v.data
      needs_human_review := some (decide (v.confidence_score < 7/10)) }
  | .error _ =>
    { success := false
      finalStatus := .failed
      data := none
      needs_human_review := none }

/-- C3 counterexample: on a candidate that fails validation (here with
MissingField), the async worker `process_single_request` does NOT return a
successful envelope with the raw candidate — the validation failure reaches
its generic exception handler, the request is marked failed, and the
envelope is unsuccessful and carries no candidate, contradicting the claim
for that workflow. -/
theorem process_single_request_validation_cex :
    validate_extraction (Json.obj []) [] [] [] = .error .missingField
    ∧ psr_handle_parsed (Json.obj []) [] [] []
        = { success := false, finalStatus := .failed, data := none,
            needs_human_review := none } :=
  ⟨rfl, rfl⟩

/-- C3 (amended): when `validate_extraction` raises a typed validation
failure, the synchronous `process_insurance_certificate` workflow still
returns a successful envelope carrying the raw unvalidated candidate,
tagged `needs_human_review` with the failure reason attached; the async
worker `process_single_request`, however, catches only JSON-decode errors,
so the same failure falls through to its generic exception handler, which
marks the request failed and returns an unsuccessful envelope without the
candidate. -/
theorem validation_failure_handling (structured_data : Json)
    (pdf_text fitz_text plumber_text : Str) (ve : ValidationErr)
    (h : validate_extraction structured_data pdf_text fitz_text plumber_text
        = .error ve) :
    pic_handle_parsed structured_data pdf_text fitz_text plumber_text
      = { success := true, data := structured_data, confidence := none,
          needs_human_review := true, validation_warnings := [ve] }
    ∧ psr_handle_parsed structured_data pdf_text fitz_text plumber_text
      = { success := false, finalStatus := .failed, data := none,
          needs_human_review := none } := by
  refine ⟨?_, ?_⟩
  · rw [pic_handle_parsed, h]
  · rw [psr_handle_parsed, h]

/-- C3 witness: the amended theorem applied to a concrete Temporal failure. -/
theorem validation_failure_handling_witness :
    pic_handle_parsed temporalWitnessCand [] (strL "AB-123456") []
      = { success := true, data := temporalWitnessCand, confidence := none,
          needs_human_review := true, validation_warnings := [.temporal] }
    ∧ psr_handle_parsed temporalWitnessCand [] (strL "AB-123456") []
      = { success := false, finalStatus := .failed, data := none,
          needs_human_review := none } :=
  validation_failure_handling temporalWitnessCand [] (strL "AB-123456") []
    .temporal (by rfl)

/-! ## C9: confidence score bounds and the review flag -/

theorem completeness_score_bounds (data : Json) :
    0 ≤ completeness_score data ∧ completeness_score data ≤ 1 := by
  rw [completeness_score]
  have hcount : confidence_required_fields.countP
      (fun f => (get_nested_value data f).isSome) ≤ confidence_required_fields.length :=
    List.countP_le_length _
  have hlen : confidence_required_fields.length = 3 := by decide
  rw [hlen] at hcount ⊢
  constructor
  · positivity
  · rw [div_le_one (by norm_num)]
    exact_mod_cast hcount

theorem text_quality_score_bounds (pdf_text : Str) :
    0 ≤ text_quality_score pdf_text ∧ text_quality_score pdf_text ≤ 1 := by
  rw [text_quality_score]
  constructor
  · apply le_min (by norm_num)
    positivity
  · exact min_le_left _ _

/-- C9: every successful validation outcome's confidence score is the
weighted sum — weights 0.3, 0.25, 0.2, 0.15, 0.1, summing to 1 — of the
five sub-scores, each of which lies in [0,1]; hence the score lies in
[0,1]; and the success envelope's `needs_human_review` flag equals
`confidence_score < 0.7`. -/
theorem validate_extraction_confidence_bounds (data : Json)
    (pdf fitz plumber : Str) (v : ValidatedData)
    (h : validate_extraction data pdf fitz plumber = .ok v) :
    v.confidence_score
        = completeness_score data * (3/10) + dates_score data * (1/4)
          + cert_format_score data * (1/5) + text_quality_score pdf * (3/20)
          + limits_score data * (1/10)
    ∧ (0 ≤ completeness_score data ∧ completeness_score data ≤ 1)
    ∧ (0 ≤ dates_score data ∧ dates_score data ≤ 1)
    ∧ (0 ≤ cert_format_score data ∧ cert_format_score data ≤ 1)
    ∧ (0 ≤ text_quality_score pdf ∧ text_quality_score pdf ≤ 1)
    ∧ (0 ≤ limits_score data ∧ limits_score data ≤ 1)
    ∧ 0 ≤ v.confidence_score
    ∧ v.confidence_score ≤ 1
    ∧ (pic_handle_parsed data pdf fitz plumber).needs_human_review
        = decide (v.confidence_score < 7/10) := by
  have h0 := h
  have hv : v = ⟨data, calculate_extraction_confidence data pdf⟩ := by
    rw [validate_extraction] at h
    split at h
    · simp at h
    · split at h
      · simp at h
      · split at h
        · simp at h
        · split at h
          · simp at h
          · injection h with h'
            exact h'.symm
  have hc1 := completeness_score_bounds data
  have hc2 : 0 ≤ dates_score data ∧ dates_score data ≤ 1 := by
    rw [dates_score]; split <;> norm_num
  have hc3 : 0 ≤ cert_format_score data ∧ cert_format_score data ≤ 1 := by
    rw [cert_format_score]; split <;> norm_num
  have hc4 := text_quality_score_bounds pdf
  have hc5 : 0 ≤ limits_score data ∧ limits_score data ≤ 1 := by
    rw [limits_score]; split <;> norm_num
  have hconf : v.confidence_score
      = completeness_score data * (3/10) + dates_score data * (1/4)
        + cert_format_score data * (1/5) + text_quality_score pdf * (3/20)
        + limits_score data * (1/10) := by
    rw [hv]
    rfl
  refine ⟨hconf, hc1, hc2, hc3, hc4, hc5, ?_, ?_, ?_⟩
  · rw [hconf]
    have := hc1.1; have := hc2.1; have := hc3.1; have := hc4.1; have := hc5.1
    positivity
  · rw [hconf]
    nlinarith [hc1.2, hc2.2, hc3.2, hc4.2, hc5.2, hc1.1, hc2.1, hc3.1, hc4.1, hc5.1]
  · rw [pic_handle_parsed, h0]

/-- A fully valid candidate used as the concrete confidence witness. -/
def fullValidCand : Json :=
  mkCand (strL "AB-123456") (strL "2024-01-01")
    (strL "2024-01-01") (strL "2025-01-01")
    (strL "2024-01-01") (strL "2025-01-01")

/-- C9 witness: the bounds theorem applied to a concrete candidate that
passes all validation stages. -/
theorem validate_extraction_confidence_bounds_witness :
    0 ≤ calculate_extraction_confidence fullValidCand []
    ∧ calculate_extraction_confidence fullValidCand [] ≤ 1 :=
  ⟨(validate_extraction_confidence_bounds fullValidCand [] (strL "AB-123456") []
      ⟨fullValidCand, calculate_extraction_confidence fullValidCand []⟩
      rfl).2.2.2.2.2.2.1,
   (validate_extraction_confidence_bounds fullValidCand [] (strL "AB-123456") []
      ⟨fullValidCand, calculate_extraction_confidence fullValidCand []⟩
      rfl).2.2.2.2.2.2.2.1⟩

/-! ## C4: cache keys.  MD5 (RFC 1321), as computed by `hashlib.md5`.

Machine words are `Nat` reduced modulo 2^32; bitwise complement of a word
`x < 2^32` is `4294967295 - x`. -/

def w32 (x : Nat) : Nat := x % 4294967296

def not32 (x : Nat) : Nat := 4294967295 - x

/-- Rotate a 32-bit word left by `s` (0 < s < 32): the two parts occupy
disjoint bit ranges, so their sum is their bitwise or. -/
def rotl32 (x s : Nat) : Nat := w32 (x * 2 ^ s) + x / 2 ^ (32 - s)

/-- The 64 constants `floor(2^32 * abs(sin(i+1)))`. -/
def md5K : List Nat :=
  [ 0xd76aa478, 0xe8c7b756, 0x242070db, 0xc1bdceee,
    0xf57c0faf, 0x4787c62a, 0xa8304613, 0xfd469501,
    0x698098d8, 0x8b44f7af, 0xffff5bb1, 0x895cd7be,
    0x6b901122, 0xfd987193, 0xa679438e, 0x49b40821,
    0xf61e2562, 0xc040b340, 0x265e5a51, 0xe9b6c7aa,
    0xd62f105d, 0x02441453, 0xd8a1e681, 0xe7d3fbc8,
    0x21e1cde6, 0xc33707d6, 0xf4d50d87, 0x455a14ed,
    0xa9e3e905, 0xfcefa3f8, 0x676f02d9, 0x8d2a4c8a,
    0xfffa3942, 0x8771f681, 0x6d9d6122, 0xfde5380c,
    0xa4beea44, 0x4bdecfa9, 0xf6bb4b60, 0xbebfbc70,
    0x289b7ec6, 0xeaa127fa, 0xd4ef3085, 0x04881d05,
    0xd9d4d039, 0xe6db99e5, 0x1fa27cf8, 0xc4ac5665,
    0xf4292244, 0x432aff97, 0xab9423a7, 0xfc93a039,
    0x655b59c3, 0x8f0ccc92, 0xffeff47d, 0x85845dd1,
    0x6fa87e4f, 0xfe2ce6e0, 0xa3014314, 0x4e0811a1,
    0xf7537e82, 0xbd3af235, 0x2ad7d2bb, 0xeb86d391 ]

/-- The per-round left-rotation amounts. -/
def md5S : List Nat :=
  [ 7, 12, 17, 22, 7, 12, 17, 22, 7, 12, 17, 22, 7, 12, 17, 22,
    5, 9, 14, 20, 5, 9, 14, 20, 5, 9, 14, 20, 5, 9, 14, 20,
    4, 11, 16, 23, 4, 11, 16, 23, 4, 11, 16, 23, 4, 11, 16, 23,
    6, 10, 15, 21, 6, 10, 15, 21, 6, 10, 15, 21, 6, 10, 15, 21 ]

/-- Little-endian 32-bit words from a byte stream. -/
def toWords : List Nat → List Nat
  | b0 :: b1 :: b2 :: b3 :: rest =>
    (b0 + 256 * b1 + 65536 * b2 + 16777216 * b3) :: toWords rest
  | _ => []

/-- `n` as `k` little-endian bytes. -/
def leBytes (k n : Nat) : List Nat :=
  (List.range k).map (fun i => n / 256 ^ i % 256)

/-- MD5 padding: a 0x80 byte, zeros to 56 mod 64, then the bit length as a
64-bit little-endian quantity. -/
def md5Pad (msg : List Nat) : List Nat :=
  msg ++ [128] ++ List.replicate ((119 - msg.length % 64) % 64) 0
    ++ leBytes 8 (msg.length * 8 % 2 ^ 64)

def chunks64Aux : Nat → List Nat → List (List Nat)
  | 0, _ => []
  | _, [] => []
  | fuel + 1, l => l.take 64 :: chunks64Aux fuel (l.drop 64)

def chunks64 (l : List Nat) : List (List Nat) := chunks64Aux l.length l

/-- One of the 64 MD5 rounds on state (a, b, c, d). -/
def md5Step (M : List Nat) (st : Nat × Nat × Nat × Nat) (i : Nat) :
    Nat × Nat × Nat × Nat :=
  let a := st.1
  let b := st.2.1
  let c := st.2.2.1
  let d := st.2.2.2
  let f :=
    if i < 16 then Nat.lor (Nat.land b c) (Nat.land (not32 b) d)
    else if i < 32 then Nat.lor (Nat.land d b) (Nat.land (not32 d) c)
    else if i < 48 then Nat.xor b (Nat.xor c d)
    else Nat.xor c (Nat.lor b (not32 d))
  let g :=
    if i < 16 then i
    else if i < 32 then (5 * i + 1) % 16
    else if i < 48 then (3 * i + 5) % 16
    else 7 * i % 16
  let tmp := w32 (f + a + md5K.getD i 0 + M.getD g 0)
  (d, w32 (b + rotl32 tmp (md5S.getD i 0)), b, c)

/-- Process one 64-byte block. -/
def md5Block (st : Nat × Nat × Nat × Nat) (block : List Nat) :
    Nat × Nat × Nat × Nat :=
  let r := (List.range 64).foldl (md5Step (toWords block)) st
  (w32 (st.1 + r.1), w32 (st.2.1 + r.2.1), w32 (st.2.2.1 + r.2.2.1),
    w32 (st.2.2.2 + r.2.2.2))

def hexDigit (n : Nat) : Char :=
  if n < 10 then Char.ofNat (48 + n) else Char.ofNat (87 + n)

/-- `hashlib.md5(msg).hexdigest()`: the full digest in lowercase hex. -/
def md5Hex (msg : List Nat) : Str :=
  let st := (chunks64 (md5Pad msg)).foldl md5Block
    (0x67452301, 0xefcdab89, 0x98badcfe, 0x10325476)
  let bytes := leBytes 4 st.1 ++ leBytes 4 st.2.1 ++ leBytes 4 st.2.2.1
    ++ leBytes 4 st.2.2.2
  bytes.foldr (fun b acc => hexDigit (b / 16) :: hexDigit (b % 16) :: acc) []

-- Sanity checks against hashlib.md5 test vectors.

theorem md5Hex_empty :
    md5Hex [] = strL "d41d8cd98f00b204e9800998ecf8427e" := by decide

theorem md5Hex_abc :
    md5Hex [97, 98, 99] = strL "900150983cd24fb0d6963f7d28e17f72" := by decide

/-- UTF-8 bytes of one character (`str.encode()`). -/
def utf8Char (c : Char) : List Nat :=
  let n := c.toNat
  if n < 128 then [n]
  else if n < 2048 then [192 + n / 64, 128 + n % 64]
  else if n < 65536 then [224 + n / 4096, 128 + n / 64 % 64, 128 + n % 64]
  else [240 + n / 262144, 128 + n / 4096 % 64, 128 + n / 64 % 64, 128 + n % 64]

/-- `str.encode()` of a whole string. -/
def utf8Encode (s : Str) : List Nat := (s.map utf8Char).flatten

/-- A submitted document: the path (or URL) it was submitted under, plus the
raw bytes of the file found there. -/
structure SubmittedDoc where
  file_path : Str
  content : List Nat

/-- `file_hash` of `process_single_request` (src/app.py, lines 198-200):
`hashlib.md5(file_content).hexdigest()` over the raw document bytes. -/
def psr_file_hash (doc : SubmittedDoc) : Str := md5Hex doc.content

/-- Result-cache key used by `CacheManager.get_cached_result` /
`cache_result` (src/app.py, lines 94 and 104): `"ocr:result:{file_hash}"`. -/
def worker_result_cache_key (doc : SubmittedDoc) : Str :=
  strL "ocr:result:" ++ psr_file_hash doc

/-- Cache key of the synchronous `/process` endpoint (src/main.py,
line 196): `"cache:" + md5(request.file_path.encode()).hexdigest()` — a
digest of the PATH STRING, not of the document bytes. -/
def process_cache_key (doc : SubmittedDoc) : Str :=
  strL "cache:" ++ md5Hex (utf8Encode doc.file_path)

/-- C4 counterexample: two submissions with byte-identical documents under
different paths.  The async worker gives them the same result-cache key,
but the synchronous `/process` endpoint of src/main.py derives its key from
the path digest, so the two byte-identical documents get different cache
keys — refuting the claim for that endpoint. -/
theorem process_cache_key_path_cex :
    (SubmittedDoc.mk (strL "a.pdf") [1, 2, 3]).content
        = (SubmittedDoc.mk (strL "b.pdf") [1, 2, 3]).content
    ∧ process_cache_key (SubmittedDoc.mk (strL "a.pdf") [1, 2, 3])
        ≠ process_cache_key (SubmittedDoc.mk (strL "b.pdf") [1, 2, 3])
    ∧ worker_result_cache_key (SubmittedDoc.mk (strL "a.pdf") [1, 2, 3])
        = worker_result_cache_key (SubmittedDoc.mk (strL "b.pdf") [1, 2, 3]) :=
  ⟨rfl, by decide, rfl⟩

/-- C4 (amended): the async worker (`process_single_request` with
`CacheManager`) derives the result-cache key from an MD5 digest of the raw
document bytes, so byte-identical documents map to the same key regardless
of submission path; the synchronous `/process` endpoint (src/main.py)
instead derives its key from an MD5 digest of the path string, so its key
depends only on the path, not on the document bytes. -/
theorem cache_key_derivation (d1 d2 : SubmittedDoc) :
    (d1.content = d2.content →
      worker_result_cache_key d1 = worker_result_cache_key d2)
    ∧ (d1.file_path = d2.file_path →
      process_cache_key d1 = process_cache_key d2) := by
  constructor
  · intro h
    rw [worker_result_cache_key, worker_result_cache_key, psr_file_hash,
      psr_file_hash, h]
  · intro h
    rw [process_cache_key, process_cache_key, h]

/-- C4 witness: byte-identical documents under the paths `x.pdf` and
`y.pdf` share the worker's result-cache key. -/
theorem cache_key_derivation_witness :
    worker_result_cache_key (SubmittedDoc.mk (strL "x.pdf") [7, 7])
      = worker_result_cache_key (SubmittedDoc.mk (strL "y.pdf") [7, 7]) :=
  (cache_key_derivation (SubmittedDoc.mk (strL "x.pdf") [7, 7])
    (SubmittedDoc.mk (strL "y.pdf") [7, 7])).1 rfl

/-! ## C1: intelligent_chunking (src/output/app.py, lines 190-256)

The nine priority patterns use only literal characters, the classes `\s`,
`\w`, `\d`, `[:\s]`, `[\w\-]`, `[\$\d,]`, and the quantifiers `+` and `?`,
under `re.IGNORECASE`.  The matcher below implements Python's backtracking
semantics for exactly these constructs (greedy `+`/`?` with fallback); fuel
makes it structurally recursive — every call shrinks pattern-size +
text-size, so the initial fuel is never exhausted. -/

inductive Quant where
  | one
  | opt
  | plus
  | star

/-- One regex atom: a character class with a quantifier.  `star` is the
internal continuation of `plus` after its first character. -/
inductive Atom where
  | cls (p : Char → Bool) (q : Quant)

/-- Match a pattern against a prefix of `s`, returning the number of
characters consumed by the leftmost-greedy match, with backtracking. -/
def matchA : Nat → List Atom → Str → Option Nat
  | 0, _, _ => none
  | _ + 1, [], _ => some 0
  | fuel + 1, .cls p .one :: rs, s =>
    match s with
    | [] => none
    | c :: s' => if p c then (matchA fuel rs s').map (· + 1) else none
  | fuel + 1, .cls p .opt :: rs, s =>
    match s with
    | [] => matchA fuel rs []
    | c :: s' =>
      if p c then
        match matchA fuel rs s' with
        | some n => some (n + 1)
        | none => matchA fuel rs s
      else matchA fuel rs s
  | fuel + 1, .cls p .plus :: rs, s =>
    match s with
    | [] => none
    | c :: s' => if p c then (matchA fuel (.cls p .star :: rs) s').map (· + 1) else none
  | fuel + 1, .cls p .star :: rs, s =>
    match s with
    | [] => matchA fuel rs []
    | c :: s' =>
      if p c then
        match matchA fuel (.cls p .star :: rs) s' with
        | some n => some (n + 1)
        | none => matchA fuel rs s
      else matchA fuel rs s

def matchRe (re : List Atom) (s : Str) : Option Nat :=
  matchA (re.length + s.length + 1) re s

/-- `re.finditer`: scan left to right, emitting non-overlapping matches
(start, end, group). The patterns here cannot match the empty string; the
`n = 0` guard only keeps the scan total. -/
def finditerFrom (re : List Atom) : Nat → Str → Nat → List (Nat × Nat × Str)
  | 0, _, _ => []
  | _ + 1, [], _ => []
  | fuel + 1, s, i =>
    match matchRe re s with
    | some n =>
      if n = 0 then finditerFrom re fuel s.tail (i + 1)
      else (i, i + n, s.take n) :: finditerFrom re fuel (s.drop n) (i + n)
    | none => finditerFrom re fuel s.tail (i + 1)

def finditer (re : List Atom) (text : Str) : List (Nat × Nat × Str) :=
  finditerFrom re text.length text 0

/-- A literal pattern character under `re.IGNORECASE` (ASCII case fold). -/
def litAtoms (s : Str) : List Atom :=
  s.map (fun c => Atom.cls (fun ch => ch.toLower == c) .one)

def spacePlus : Atom := .cls pySpace .plus

def colonSpacePlus : Atom := .cls (fun c => c == ':' || pySpace c) .plus

/-- The `priority_patterns` list of `intelligent_chunking` (lines 196-206),
in source order. -/
def priority_patterns : List (List Atom) :=
  [ litAtoms (strL "certificate") ++ [spacePlus] ++ litAtoms (strL "number")
      ++ [colonSpacePlus, .cls pyWord .plus],
    litAtoms (strL "policy") ++ [spacePlus] ++ litAtoms (strL "number")
      ++ [colonSpacePlus, .cls (fun c => pyWord c || c == '-') .plus],
    litAtoms (strL "effective") ++ [spacePlus] ++ litAtoms (strL "date")
      ++ [colonSpacePlus, .cls pyDigit .plus],
    litAtoms (strL "expiration") ++ [spacePlus] ++ litAtoms (strL "date")
      ++ [colonSpacePlus, .cls pyDigit .plus],
    litAtoms (strL "general") ++ [spacePlus] ++ litAtoms (strL "aggregate")
      ++ [colonSpacePlus, .cls (fun c => c == '$' || pyDigit c || c == ',') .plus],
    litAtoms (strL "each") ++ [spacePlus] ++ litAtoms (strL "occurrence")
      ++ [colonSpacePlus, .cls (fun c => c == '$' || pyDigit c || c == ',') .plus],
    litAtoms (strL "workers") ++ [spacePlus] ++ litAtoms (strL "compensation"),
    litAtoms (strL "liability") ++ [spacePlus] ++ litAtoms (strL "limit")
      ++ [.cls (fun c => c.toLower == 's') .opt],
    litAtoms (strL "certificate") ++ [spacePlus] ++ litAtoms (strL "holder") ]

/-- The `priority_sections` list (lines 209-215): for each pattern in
order, for each match, the window from 100 characters before the match to
200 after it, clipped to the text, tagged with the matched group. -/
def priority_sections (text : Str) : List (Nat × Nat × Str) :=
  (priority_patterns.map (fun re =>
    (finditer re text).map (fun m =>
      (m.1 - 100, min text.length (m.2.1 + 200), m.2.2)))).flatten

/-- Python string `<` (code-point lexicographic). -/
def pyStrLt : Str → Str → Bool
  | [], [] => false
  | [], _ :: _ => true
  | _ :: _, [] => false
  | a :: xs, b :: ys =>
    if a.toNat < b.toNat then true
    else if b.toNat < a.toNat then false
    else pyStrLt xs ys

/-- Python tuple `<=` on (start, end, group), as used by `list.sort()`. -/
def tupleLe (x y : Nat × Nat × Str) : Bool :=
  if x.1 < y.1 then true
  else if y.1 < x.1 then false
  else if x.2.1 < y.2.1 then true
  else if y.2.1 < x.2.1 then false
  else !pyStrLt y.2.2 x.2.2

def insertLe (le : Nat × Nat × Str → Nat × Nat × Str → Bool)
    (x : Nat × Nat × Str) : List (Nat × Nat × Str) → List (Nat × Nat × Str)
  | [] => [x]
  | y :: ys => if le x y then x :: y :: ys else y :: insertLe le x ys

/-- `priority_sections.sort()`: sorting by the tuple order (equal keys are
identical triples, so any correct sort agrees with Python's stable sort). -/
def sortSections : List (Nat × Nat × Str) → List (Nat × Nat × Str)
  | [] => []
  | x :: xs => insertLe tupleLe x (sortSections xs)

/-- The merge loop (lines 221-230): fold the sorted sections, merging a
section into the current window when its start is within 50 characters of
the current end. -/
def mergeSectionsAux : Nat → Nat → List (Nat × Nat × Str) → List (Nat × Nat)
  | curStart, curEnd, [] => [(curStart, curEnd)]
  | curStart, curEnd, se :: rest =>
    if se.1 ≤ curEnd + 50 then mergeSectionsAux curStart (max curEnd se.2.1) rest
    else (curStart, curEnd) :: mergeSectionsAux se.1 se.2.1 rest

def merged_sections : List (Nat × Nat × Str) → List (Nat × Nat)
  | [] => []
  | se :: rest => mergeSectionsAux se.1 se.2.1 rest

/-- Python slice `text[s:e]` for 0 ≤ s, e ≤ len. -/
def pySlice (text : Str) (s e : Nat) : Str := (text.take e).drop s

/-- The chunk-building loop (lines 233-246): add whole sections while they
fit; at the first overflow add a partial section only if more than 100
characters of budget remain, then stop. -/
def chunk_parts_aux (text : Str) (max_chars : Nat) :
    List (Nat × Nat) → Nat → List Str
  | [], _ => []
  | se :: rest, total =>
    let sec := pySlice text se.1 se.2
    if total + sec.length ≤ max_chars then
      sec :: chunk_parts_aux text max_chars rest (total + sec.length)
    else if max_chars - total > 100 then [sec.take (max_chars - total)]
    else []

def chunk_parts (text : Str) (max_chars : Nat) : List Str :=
  chunk_parts_aux text max_chars
    (merged_sections (sortSections (priority_sections text))) 0

/-- Python `" ... ".join(parts)`. -/
def joinSep (sep : Str) : List Str → Str
  | [] => []
  | [p] => p
  | p :: q :: rest => p ++ sep ++ joinSep sep (q :: rest)

/-- `truncated.rfind('.')`: highest index of a dot, or -1. -/
def rfindDotAux : Str → Nat → Int → Int
  | [], _, acc => acc
  | c :: rest, i, acc => rfindDotAux rest (i + 1) (if c == '.' then Int.ofNat i else acc)

def rfindDot (s : Str) : Int := rfindDotAux s 0 (-1)

/-- `intelligent_chunking` (src/output/app.py, lines 190-256).  The float
comparison `last_sentence > max_chars * 0.7` is modelled exactly as
`10 * last_sentence > 7 * max_chars`; the double rounding of `0.7` can
shift this threshold only when `7 * max_chars` is a multiple of 10, and
affects only which suffix of the prefix-truncation is kept — never the
budget properties proved below. -/
def intelligent_chunking (text : Str) (max_chars : Nat) : Str :=
  if text.length ≤ max_chars then text
  else if (priority_sections text).isEmpty = false then
    joinSep (strL " ... ") (chunk_parts text max_chars)
  else
    let truncated := text.take max_chars
    let last_sentence := rfindDot truncated
    if 10 * last_sentence > (7 * max_chars : Int) then
      truncated.take (last_sentence.toNat + 1)
    else truncated

/-- Text of the C1 counterexample: a `workers compensation` mention at
offset 0 (window [0, 220)) and another at offset 371 (window [271, 392)),
too far apart to merge; no other priority pattern matches. -/
def chunkCexText : Str :=
  strL "workers compensation" ++ List.replicate 351 'x'
    ++ strL "workers compensation" ++ ['x']

/-- C1 counterexample: with character budget 341 on this 392-character
text, both retained windows fit exactly (220 + 121 = 341 characters), but
the `" ... "` separator joining them is not counted against the budget, so
the returned chunk has 346 characters — exceeding the requested budget. -/
theorem intelligent_chunking_budget_cex :
    chunkCexText.length = 392
    ∧ (intelligent_chunking chunkCexText 341).length = 346
    ∧ 341 < (intelligent_chunking chunkCexText 341).length :=
  ⟨by decide, by decide, by decide⟩

theorem chunk_parts_aux_sum (text : Str) (max_chars : Nat) :
    ∀ (secs : List (Nat × Nat)) (total : Nat), total ≤ max_chars →
      total + ((chunk_parts_aux text max_chars secs total).map List.length).sum
        ≤ max_chars := by
  intro secs
  induction secs with
  | nil =>
    intro total h
    simpa [chunk_parts_aux] using h
  | cons se rest ih =>
    intro total h
    rw [chunk_parts_aux]
    by_cases hfit : total + (pySlice text se.1 se.2).length ≤ max_chars
    · simp only [hfit, if_pos]
      have := ih (total + (pySlice text se.1 se.2).length) hfit
      simp only [List.map_cons, List.sum_cons]
      omega
    · rw [if_neg hfit]
      by_cases hrem : max_chars - total > 100
      · rw [if_pos hrem]
        simp only [List.map_cons, List.map_nil, List.sum_cons, List.sum_nil]
        have : ((pySlice text se.1 se.2).take (max_chars - total)).length
            ≤ max_chars - total := by
          rw [List.length_take]
          omega
        omega
      · rw [if_neg hrem]
        simpa using h

theorem joinSep_length (sep : Str) :
    ∀ ps : List Str,
      (joinSep sep ps).length
        = (ps.map List.length).sum + sep.length * (ps.length - 1) := by
  intro ps
  induction ps with
  | nil => simp [joinSep]
  | cons p rest ih =>
    cases rest with
    | nil => simp [joinSep]
    | cons q rrest =>
      rw [joinSep]
      simp only [List.length_append, ih, List.map_cons, List.sum_cons,
        List.length_cons, Nat.add_sub_cancel, Nat.mul_succ]
      omega

/-- C1 (amended): `intelligent_chunking` is the identity whenever the input
already fits the budget, and the retained window content never exceeds the
budget — but the `" ... "` separators between retained windows are not
counted, so the output length is bounded only by
`budget + 5 * (number of windows - 1)` and can exceed the budget itself
(see `intelligent_chunking_budget_cex`).  On the no-priority-match fallback
the output is a prefix of the text of length at most the budget. -/
theorem intelligent_chunking_budget (text : Str) (max_chars : Nat) :
    (text.length ≤ max_chars → intelligent_chunking text max_chars = text)
    ∧ ((chunk_parts text max_chars).map List.length).sum ≤ max_chars
    ∧ (intelligent_chunking text max_chars).length
        ≤ max_chars + 5 * ((chunk_parts text max_chars).length - 1) := by
  have hsum : ((chunk_parts text max_chars).map List.length).sum ≤ max_chars := by
    have := chunk_parts_aux_sum text max_chars
      (merged_sections (sortSections (priority_sections text))) 0 (Nat.zero_le _)
    simpa [chunk_parts] using this
  refine ⟨fun h => by rw [intelligent_chunking, if_pos h], hsum, ?_⟩
  rw [intelligent_chunking]
  by_cases hfits : text.length ≤ max_chars
  · rw [if_pos hfits]
    omega
  · rw [if_neg hfits]
    by_cases hprio : (priority_sections text).isEmpty = false
    · rw [if_pos hprio]
      rw [joinSep_length]
      have hsep : (strL " ... ").length = 5 := by decide
      rw [hsep]
      omega
    · rw [if_neg hprio]
      by_cases hdot : 10 * rfindDot (text.take max_chars) > (7 * max_chars : Int)
      · simp only [hdot, if_pos]
        have h1 : ((text.take max_chars).take
            ((rfindDot (text.take max_chars)).toNat + 1)).length
            ≤ (text.take max_chars).length := by
          rw [List.length_take, List.length_take]
          omega
        have h2 : (text.take max_chars).length ≤ max_chars := by
          rw [List.length_take]; omega
        omega
      · simp only [hdot, if_neg, not_false_iff]
        have h2 : (text.take max_chars).length ≤ max_chars := by
          rw [List.length_take]; omega
        omega

/-- C1 witness: the amended theorem's no-op half at a concrete fitting
input, and its budget bound at the counterexample input. -/
theorem intelligent_chunking_budget_witness :
    intelligent_chunking (strL "short text") 6000 = strL "short text"
    ∧ ((chunk_parts chunkCexText 341).map List.length).sum ≤ 341 :=
  ⟨(intelligent_chunking_budget (strL "short text") 6000).1 (by decide),
   (intelligent_chunking_budget chunkCexText 341).2.1⟩
